import Mathlib

/-!
Verification of the garmin-workout-creator text-to-structure parsing pipeline
and its workout data model.  Python strings are modelled as `List Char`,
Python floats as `ℚ`, fallible code as `Except`/`Option`.
-/

namespace GWC

/-! ### String utilities (models of the Python primitives the code uses) -/

/-- ASCII whitespace recognized by Python `str.strip()` and regex `\s`. -/
def pySpace (c : Char) : Bool :=
  c = ' ' || c = '\t' || c = '\n' || c = '\r' || c = '\x0b' || c = '\x0c'

/-- Python `str.strip()`: drop leading and trailing whitespace. -/
def pyStrip (l : List Char) : List Char :=
  ((l.dropWhile pySpace).reverse.dropWhile pySpace).reverse

def isDigitC (c : Char) : Bool := c.isDigit

/-- Regex word character `\w` (ASCII scope of this code's inputs). -/
def isWordC (c : Char) : Bool := c.isAlphanum || c = '_'

/-- Numeric value of a decimal digit string. -/
def digitsVal (l : List Char) : Nat :=
  l.foldl (fun a c => 10 * a + (c.toNat - 48)) 0

/-- Model of Python `int()` on the strings this code passes it: optional
surrounding whitespace around a nonempty run of decimal digits. -/
def pyInt (l : List Char) : Option Nat :=
  let t := pyStrip l
  if t ≠ [] && t.all isDigitC then some (digitsVal t) else none

/-- Python `str.split(sep)` for a one-character separator (no collapsing,
empty pieces kept, `"".split(sep) = [""]`). -/
def splitOnChar (sep : Char) : List Char → List (List Char)
  | [] => [[]]
  | c :: t =>
    if c = sep then [] :: splitOnChar sep t
    else
      match splitOnChar sep t with
      | [] => [[c]]
      | h :: r => (c :: h) :: r

/-- Model of Python `float()` on strings matching `\d+(\.\d+)?`. -/
def pyFloat (l : List Char) : Option ℚ :=
  match splitOnChar '.' l with
  | [a] => if a ≠ [] && a.all isDigitC then some (digitsVal a) else none
  | [a, b] =>
    if a ≠ [] && a.all isDigitC && b ≠ [] && b.all isDigitC then
      some ((digitsVal a : ℚ) + (digitsVal b : ℚ) / ((10 : ℚ) ^ b.length))
    else none
  | _ => none

/-! ### models/target.py -/

inductive TargTy where
  | pace
  | heartRate
  | cadence
  | openTgt
deriving DecidableEq, Repr

/-- `PaceTarget` (seconds per kilometer). -/
structure PaceTarget where
  min_seconds_per_km : Nat
  max_seconds_per_km : Option Nat
deriving DecidableEq, Repr

/-- Pydantic field bounds (ge=60, le=1200) and the `validate_pace_range`
validator of `PaceTarget`. -/
def PaceTarget.validT (t : PaceTarget) : Bool :=
  decide (60 ≤ t.min_seconds_per_km) && decide (t.min_seconds_per_km ≤ 1200) &&
  (match t.max_seconds_per_km with
   | none => true
   | some m => decide (60 ≤ m) && decide (m ≤ 1200) && decide (t.min_seconds_per_km ≤ m))

/-- `HeartRateTarget` (beats per minute). -/
structure HeartRateTarget where
  min_bpm : Nat
  max_bpm : Option Nat
deriving DecidableEq, Repr

/-- Pydantic field bounds (ge=40, le=220) and `validate_hr_range`. -/
def HeartRateTarget.validT (t : HeartRateTarget) : Bool :=
  decide (40 ≤ t.min_bpm) && decide (t.min_bpm ≤ 220) &&
  (match t.max_bpm with
   | none => true
   | some m => decide (40 ≤ m) && decide (m ≤ 220) && decide (t.min_bpm ≤ m))

/-- `CadenceTarget` (steps per minute). -/
structure CadenceTarget where
  min_spm : Nat
  max_spm : Option Nat
deriving DecidableEq, Repr

/-- Pydantic field bounds (ge=60, le=220) and `validate_cadence_range`. -/
def CadenceTarget.validT (t : CadenceTarget) : Bool :=
  decide (60 ≤ t.min_spm) && decide (t.min_spm ≤ 220) &&
  (match t.max_spm with
   | none => true
   | some m => decide (60 ≤ m) && decide (m ≤ 220) && decide (t.min_spm ≤ m))

/-! ### models/step.py -/

inductive StepTy where
  | warmup
  | interval
  | recovery
  | cooldown
  | repeat
deriving DecidableEq, Repr

inductive DurTy where
  | distance
  | time
  | openDur
deriving DecidableEq, Repr

/-- `WorkoutStep`.  Field order follows the source. -/
inductive WorkoutStep where
  | mk
    (step_type : StepTy)
    (duration_type : DurTy)
    (duration_value : Option ℚ)
    (duration_unit : Option (List Char))
    (target_type : TargTy)
    (pace_target : Option PaceTarget)
    (hr_target : Option HeartRateTarget)
    (cadence_target : Option CadenceTarget)
    (description : Option (List Char))
    (repeat_count : Option Nat)
    (repeat_steps : Option (List WorkoutStep))

def WorkoutStep.step_type : WorkoutStep → StepTy
  | .mk st _ _ _ _ _ _ _ _ _ _ => st

def WorkoutStep.duration_type : WorkoutStep → DurTy
  | .mk _ dt _ _ _ _ _ _ _ _ _ => dt

def WorkoutStep.duration_value : WorkoutStep → Option ℚ
  | .mk _ _ dv _ _ _ _ _ _ _ _ => dv

def WorkoutStep.duration_unit : WorkoutStep → Option (List Char)
  | .mk _ _ _ du _ _ _ _ _ _ _ => du

def WorkoutStep.target_type : WorkoutStep → TargTy
  | .mk _ _ _ _ tt _ _ _ _ _ _ => tt

def WorkoutStep.pace_target : WorkoutStep → Option PaceTarget
  | .mk _ _ _ _ _ pt _ _ _ _ _ => pt

def WorkoutStep.hr_target : WorkoutStep → Option HeartRateTarget
  | .mk _ _ _ _ _ _ ht _ _ _ _ => ht

def WorkoutStep.cadence_target : WorkoutStep → Option CadenceTarget
  | .mk _ _ _ _ _ _ _ ct _ _ _ => ct

def WorkoutStep.repeat_count : WorkoutStep → Option Nat
  | .mk _ _ _ _ _ _ _ _ _ rc _ => rc

def WorkoutStep.repeat_steps : WorkoutStep → Option (List WorkoutStep)
  | .mk _ _ _ _ _ _ _ _ _ _ rs => rs

/-- `validate_duration_value` plus the `gt=0` field bound on `duration_value`. -/
def WorkoutStep.durationFieldsOk (s : WorkoutStep) : Bool :=
  match s.duration_value with
  | none => s.duration_type = .openDur
  | some v => s.duration_type ≠ .openDur && decide (0 < v)

/-- `validate_target_consistency`. -/
def WorkoutStep.targetFieldsOk (s : WorkoutStep) : Bool :=
  let n := (if s.pace_target.isSome then 1 else 0) +
    (if s.hr_target.isSome then 1 else 0) +
    (if s.cadence_target.isSome then 1 else 0)
  match s.target_type with
  | .openTgt => n == 0
  | .pace => s.pace_target.isSome && n ≤ 1
  | .heartRate => s.hr_target.isSome && n ≤ 1
  | .cadence => s.cadence_target.isSome && n ≤ 1

/-- `validate_repeat_fields`. -/
def WorkoutStep.repeatFieldsOk (s : WorkoutStep) : Bool :=
  match s.step_type with
  | .repeat =>
    s.repeat_count.isSome &&
    (match s.repeat_steps with
     | some (_ :: _) => true
     | _ => false)
  | _ => s.repeat_count.isNone && s.repeat_steps.isNone

/-- The `ge=1, le=99` field bound on `repeat_count`. -/
def WorkoutStep.countRangeOk (s : WorkoutStep) : Bool :=
  match s.repeat_count with
  | none => true
  | some n => decide (1 ≤ n) && decide (n ≤ 99)

/-- Validity of the target payloads themselves. -/
def WorkoutStep.payloadsOk (s : WorkoutStep) : Bool :=
  (match s.pace_target with | none => true | some p => p.validT) &&
  (match s.hr_target with | none => true | some h => h.validT) &&
  (match s.cadence_target with | none => true | some c => c.validT)

/-- All validation that pydantic applies to one `WorkoutStep` record,
not descending into child steps. -/
def WorkoutStep.ownValid (s : WorkoutStep) : Bool :=
  s.durationFieldsOk && s.targetFieldsOk && s.repeatFieldsOk &&
  s.countRangeOk && s.payloadsOk

mutual

/-- Entity validation of a step tree: pydantic validates each record and,
when a step tree is built from raw data, every nested child step. -/
def WorkoutStep.valid : WorkoutStep → Bool
  | .mk st dt dv du tt pt ht ct de rc none =>
    WorkoutStep.ownValid (.mk st dt dv du tt pt ht ct de rc none)
  | .mk st dt dv du tt pt ht ct de rc (some children) =>
    WorkoutStep.ownValid (.mk st dt dv du tt pt ht ct de rc (some children)) &&
    WorkoutStep.validList children

def WorkoutStep.validList : List WorkoutStep → Bool
  | [] => true
  | c :: r => c.valid && WorkoutStep.validList r

end

/-- `get_duration_in_meters`. -/
def WorkoutStep.get_duration_in_meters (s : WorkoutStep) : Option ℚ :=
  match s.duration_type, s.duration_value with
  | .distance, some v =>
    let u := s.duration_unit
    if u = some "km".toList || u = some "k".toList || u = some "kilometers".toList then
      some (v * 1000)
    else if u = some "m".toList || u = some "meters".toList || u = some "metre".toList then
      some v
    else if u = some "mi".toList || u = some "mile".toList || u = some "miles".toList then
      some (v * (160934 / 100 : ℚ))
    else
      some v
  | _, _ => none

/-- `get_duration_in_seconds`. -/
def WorkoutStep.get_duration_in_seconds (s : WorkoutStep) : Option ℚ :=
  match s.duration_type, s.duration_value with
  | .time, some v =>
    let u := s.duration_unit
    if u = some "min".toList || u = some "minute".toList || u = some "minutes".toList then
      some (v * 60)
    else if u = some "sec".toList || u = some "second".toList || u = some "seconds".toList
        || u = some "s".toList then
      some v
    else if u = some "hr".toList || u = some "hour".toList || u = some "hours".toList
        || u = some "h".toList then
      some (v * 3600)
    else
      some v
  | _, _ => none

/-! ### models/workout.py -/

structure Workout where
  name : List Char
  sport_type : List Char
  steps : List WorkoutStep
  scheduled_date : Option (Nat × Nat × Nat)
  notes : Option (List Char)

/-- Pydantic validation of a `Workout` built from raw data: name length
1–100, notes at most 500 chars, at least one step, nested steps valid. -/
def Workout.valid (w : Workout) : Bool :=
  decide (1 ≤ w.name.length) && decide (w.name.length ≤ 100) &&
  (match w.notes with | none => true | some nts => decide (nts.length ≤ 500)) &&
  !w.steps.isEmpty && WorkoutStep.validList w.steps

/-- Python `x or 1` on the optional repeat count (`None` and `0` give 1). -/
def pyOrOne : Option Nat → Nat
  | none => 1
  | some 0 => 1
  | some (n + 1) => n + 1

/-- The inner loop of `get_total_distance_km` over the children of a
repeat step: early `None` if any child has no resolvable distance. -/
def sumChildMeters : List WorkoutStep → Option ℚ
  | [] => some 0
  | c :: r =>
    match c.get_duration_in_meters with
    | none => none
    | some m => (sumChildMeters r).map (fun t => m + t)

/-- The main loop of `get_total_distance_km` (total in meters). -/
def totalMetersAux : List WorkoutStep → Option ℚ
  | [] => some 0
  | s :: r =>
    let contrib : Option ℚ :=
      if decide (s.step_type = .repeat) && !(s.repeat_steps.getD []).isEmpty then
        (sumChildMeters (s.repeat_steps.getD [])).map
          (fun d => d * (pyOrOne s.repeat_count : ℚ))
      else s.get_duration_in_meters
    match contrib with
    | none => none
    | some m => (totalMetersAux r).map (fun t => m + t)

/-- `Workout.get_total_distance_km`. -/
def Workout.get_total_distance_km (w : Workout) : Option ℚ :=
  (totalMetersAux w.steps).map (fun m => m / 1000)

/-! Spec-side definitions for the total-distance claim, following the
spec's words: a leaf step is every non-Repeat top-level step and every
child of a Repeat step. -/

/-- Spec side: every leaf step has duration kind Distance. -/
def leafStepsAllDistance (steps : List WorkoutStep) : Bool :=
  steps.all fun s =>
    if s.step_type = .repeat then
      (s.repeat_steps.getD []).all fun c => decide (c.duration_type = .distance)
    else decide (s.duration_type = .distance)

/-- Spec side: one top-level step's contribution in meters (a Repeat
contributes `repeat_count` times the sum of its children's distances). -/
def specStepMeters (s : WorkoutStep) : ℚ :=
  if s.step_type = .repeat then
    (s.repeat_count.getD 1 : ℚ) *
      ((s.repeat_steps.getD []).map (fun c => c.get_duration_in_meters.getD 0)).sum
  else s.get_duration_in_meters.getD 0

/-- Spec side: sum over top-level steps of distance in meters. -/
def specTotalMeters (steps : List WorkoutStep) : ℚ :=
  (steps.map specStepMeters).sum

/-- The unit spellings `get_duration_in_meters` converts. -/
def distanceConvUnits : List (List Char) :=
  ["km", "k", "kilometers", "m", "meters", "metre", "mi", "mile", "miles"].map
    String.toList

/-- The unit spellings `get_duration_in_seconds` converts. -/
def timeConvUnits : List (List Char) :=
  ["min", "minute", "minutes", "sec", "second", "seconds", "s", "hr", "hour",
    "hours", "h"].map String.toList

/-! ### PaceTarget string conversions (models/target.py) -/

/-- Outcomes of the fallible model/parsing code (`ValueError` and pydantic
`ValidationError` subclasses, distinguished by their message). -/
inductive ParseError where
  | emptyInput
  | noStepsFound
  | unparsableSegment (seg : List Char)
  | stepError (seg : List Char) (e : ParseError)
  | unknownUnit (u : List Char)
  | paceNoColon (t : List Char)
  | paceParts (t : List Char)
  | paceInt (t : List Char)
  | paceSeconds (n : Nat)
  | paceRange (n : Nat)
  | hrRange (n : Nat)
  | badNumber (t : List Char)
  | workoutInvalid
  | stepInvalid
deriving DecidableEq, Repr

/-- `PaceTarget.from_pace_string`. -/
def fromPaceString (pace : List Char) : Except ParseError PaceTarget :=
  let p := pyStrip pace
  if ':' ∉ p then .error (.paceNoColon p)
  else
    match splitOnChar ':' p with
    | [a, b] =>
      match pyInt a, pyInt b with
      | some minutes, some seconds =>
        if 60 ≤ seconds then .error (.paceSeconds seconds)
        else
          let total := minutes * 60 + seconds
          if 60 ≤ total ∧ total ≤ 1200 then
            .ok { min_seconds_per_km := total, max_seconds_per_km := none }
          else .error (.paceRange total)
      | _, _ => .error (.paceInt p)
    | _ => .error (.paceParts p)

/-- Python `str(n)` for a natural number. -/
def natChars (n : Nat) : List Char := Nat.toDigits 10 n

/-- Python `f"{s:02d}"` for the (nonnegative) seconds value. -/
def pad2 (n : Nat) : List Char :=
  if n < 10 then '0' :: natChars n else natChars n

/-- `PaceTarget.to_pace_string`. -/
def toPaceString (t : PaceTarget) : List Char :=
  natChars (t.min_seconds_per_km / 60) ++ ':' :: pad2 (t.min_seconds_per_km % 60)

/-- The canonical `M:SS` rendering of the claim: minutes without a leading
zero, seconds zero-padded to two digits. -/
def paceRender (m s : Nat) : List Char :=
  natChars m ++ ':' :: pad2 s

/-! ### parsers/regex_parser.py — text normalization

Each `re.sub` is modelled by a scanner that walks the string left to
right, replaces the leftmost match, and resumes after the matched text
(Python never rescans a replacement).  A rule is a function from
(previous original char, current char, remaining chars) to an optional
(replacement, extra chars consumed beyond the current one). -/

/-- One `re.sub` pass.  Fuel is the input length plus one; every step
consumes at least one character, so the fuel never runs out. -/
def scanSub (rule : Option Char → Char → List Char → Option (List Char × Nat)) :
    Nat → Option Char → List Char → List Char
  | 0, _, l => l
  | _ + 1, _, [] => []
  | fuel + 1, prev, c :: tl =>
    match rule prev c tl with
    | some (repl, n) =>
      repl ++ scanSub rule fuel (some ((tl.take n).getLastD c)) (tl.drop n)
    | none => c :: scanSub rule fuel (some c) tl

/-- Regex `\b` test on the text that follows a word character. -/
def atBoundary : List Char → Bool
  | [] => true
  | x :: _ => !isWordC x

def isSepC (c : Char) : Bool := c = ';' || c = ',' || c = '\n'

/-- Rule `[;,\n]+ → ","`. -/
def trySeps (_ : Option Char) (c : Char) (tl : List Char) :
    Option (List Char × Nat) :=
  if isSepC c then some ([','], (tl.takeWhile isSepC).length) else none

/-- Rule `(\d+(?:\.\d+)?)\s*CORE[s?]\b → \1REPL` (the number-glued unit
rewrites; `optS` says whether the regex has an optional trailing `s`). -/
def tryNumUnit (core : List Char) (optS : Bool) (repl : List Char)
    (_ : Option Char) (c : Char) (tl : List Char) : Option (List Char × Nat) :=
  if isDigitC c then
    let d1 := tl.takeWhile isDigitC
    let n1 := d1.length
    let afterD1 := tl.drop n1
    let fr : Option (List Char × Nat) :=
      match afterD1 with
      | '.' :: r =>
        let d2 := r.takeWhile isDigitC
        if d2.isEmpty then none else some ('.' :: d2, 1 + d2.length)
      | _ => none
    let numStr := c :: d1 ++ (fr.map Prod.fst).getD []
    let n2 := n1 + (fr.map Prod.snd).getD 0
    let rest := tl.drop n2
    let sp := (rest.takeWhile pySpace).length
    let rest2 := rest.drop sp
    let tryCore : List Char → Option Nat := fun w =>
      if w.isPrefixOf rest2 && atBoundary (rest2.drop w.length) then some w.length
      else none
    match (if optS then tryCore (core ++ ['s']) else none) with
    | some wl => some (numStr ++ repl, n2 + sp + wl)
    | none =>
      match tryCore core with
      | some wl => some (numStr ++ repl, n2 + sp + wl)
      | none => none
  else none

/-- Rule `\bWORD[s?]\b → REPL` (the word-form unit rewrites). -/
def tryWord (word : List Char) (optS : Bool) (repl : List Char)
    (prev : Option Char) (c : Char) (tl : List Char) : Option (List Char × Nat) :=
  let prevOk := match prev with | none => true | some p => !isWordC p
  if prevOk then
    let l := c :: tl
    let tryW : List Char → Option Nat := fun w =>
      if w.isPrefixOf l && atBoundary (l.drop w.length) then some w.length else none
    match (if optS then tryW (word ++ ['s']) else none) with
    | some wl => some (repl, wl - 1)
    | none =>
      match tryW word with
      | some wl => some (repl, wl - 1)
      | none => none
  else none

/-- Rule `\s+@\s+ → " @ "`. -/
def tryAt (_ : Option Char) (c : Char) (tl : List Char) :
    Option (List Char × Nat) :=
  if pySpace c then
    let sp1 := (tl.takeWhile pySpace).length
    match tl.drop sp1 with
    | '@' :: r2 =>
      let sp2 := (r2.takeWhile pySpace).length
      if 1 ≤ sp2 then some (" @ ".toList, sp1 + 1 + sp2) else none
    | _ => none
  else none

/-- Rule `\s*\+\s* → " + "`. -/
def tryPlus (_ : Option Char) (c : Char) (tl : List Char) :
    Option (List Char × Nat) :=
  if c = '+' then some (" + ".toList, (tl.takeWhile pySpace).length)
  else if pySpace c then
    let sp1 := (tl.takeWhile pySpace).length
    match tl.drop sp1 with
    | '+' :: r2 => some (" + ".toList, sp1 + 1 + (r2.takeWhile pySpace).length)
    | _ => none
  else none

/-- `RegexWorkoutParser._normalize_text`. -/
def normText (text : List Char) : List Char :=
  let t0 := pyStrip (text.map Char.toLower)
  let t1 := scanSub trySeps (t0.length + 1) none t0
  let t2 := scanSub (tryNumUnit "k".toList false "km".toList) (t1.length + 1) none t1
  let t3 := scanSub (tryWord "kms".toList false "km".toList) (t2.length + 1) none t2
  let t4 := scanSub (tryWord "kilometer".toList true "km".toList) (t3.length + 1) none t3
  let t5 := scanSub (tryNumUnit "min".toList true "min".toList) (t4.length + 1) none t4
  let t6 := scanSub (tryWord "minute".toList true "min".toList) (t5.length + 1) none t5
  let t7 := scanSub (tryNumUnit "sec".toList true "sec".toList) (t6.length + 1) none t6
  let t8 := scanSub (tryWord "second".toList true "sec".toList) (t7.length + 1) none t7
  let t9 := scanSub (tryWord "hour".toList true "hr".toList) (t8.length + 1) none t8
  let t10 := scanSub tryAt (t9.length + 1) none t9
  scanSub tryPlus (t10.length + 1) none t10

/-- `RegexWorkoutParser._split_workout`. -/
def splitWorkout (text : List Char) : List (List Char) :=
  ((splitOnChar ',' text).map pyStrip).filter (fun p => !p.isEmpty)

/-! ### Target resolution (`_parse_target`, `HR_PATTERN`, `PACE_PATTERN`) -/

/-- Case-insensitive literal prefix test (the patterns are compiled with
`re.IGNORECASE`). -/
def ciPrefix (w l : List Char) : Bool :=
  (l.take w.length).map Char.toLower == w

/-- After the digits of `HR_PATTERN = (\d{2,3})\s*(?:bpm|beats?)`:
optional whitespace then `bpm` or `beat`. -/
def hrAfterDigits (rest : List Char) : Bool :=
  let r2 := rest.drop (rest.takeWhile pySpace).length
  ciPrefix "bpm".toList r2 || ciPrefix "beat".toList r2

/-- `HR_PATTERN` tried at one position (2–3 digits, greedy). -/
def hrTryAt (l : List Char) : Option (List Char) :=
  match l with
  | a :: b :: rest =>
    if isDigitC a && isDigitC b then
      match rest with
      | c :: r2 =>
        if isDigitC c && hrAfterDigits r2 then some [a, b, c]
        else if hrAfterDigits rest then some [a, b]
        else none
      | [] => none
    else none
  | _ => none

/-- `re.search` of `HR_PATTERN`: leftmost match, captured digits. -/
def hrSearch : List Char → Option (List Char)
  | [] => none
  | c :: tl =>
    match hrTryAt (c :: tl) with
    | some g => some g
    | none => hrSearch tl

/-- `PACE_PATTERN = (\d{1,2}):(\d{2})` at one position, two-digit minutes. -/
def paceTry2 : List Char → Option (List Char × List Char)
  | a :: b :: c :: d :: e :: _ =>
    if isDigitC a && isDigitC b && c = ':' && isDigitC d && isDigitC e then
      some ([a, b], [d, e])
    else none
  | _ => none

/-- `PACE_PATTERN` at one position, one-digit minutes. -/
def paceTry1 : List Char → Option (List Char × List Char)
  | a :: b :: c :: d :: _ =>
    if isDigitC a && b = ':' && isDigitC c && isDigitC d then
      some ([a], [c, d])
    else none
  | _ => none

/-- `re.search` of `PACE_PATTERN`: leftmost match, greedy minutes. -/
def paceSearch : List Char → Option (List Char × List Char)
  | [] => none
  | c :: tl =>
    match (paceTry2 (c :: tl)).orElse (fun _ => paceTry1 (c :: tl)) with
    | some g => some g
    | none => paceSearch tl

/-- `RegexWorkoutParser._parse_target`. -/
def parseTarget (target : Option (List Char)) :
    Except ParseError (TargTy × Option PaceTarget × Option HeartRateTarget) :=
  match target with
  | none => .ok (.openTgt, none, none)
  | some s0 =>
    if s0.isEmpty then .ok (.openTgt, none, none)
    else
      let s := pyStrip s0
      match hrSearch s with
      | some g =>
        let bpm := (pyInt g).getD 0
        if 40 ≤ bpm ∧ bpm ≤ 220 then .ok (.heartRate, none, some ⟨bpm, none⟩)
        else .error (.hrRange bpm)
      | none =>
        match paceSearch s with
        | some (g1, g2) =>
          match fromPaceString (g1 ++ ':' :: g2) with
          | .ok pt => .ok (.pace, some pt, none)
          | .error e => .error e
        | none => .ok (.openTgt, none, none)

/-! ### The five compiled grammar rules (`_compile_patterns`)

Matchers are continuation-passing so alternation and optional groups
backtrack exactly as the Python regexes do.  Segments reaching
`_parse_step` contain no newline (the normalizer collapsed them), so `$`
is modelled as end of string. -/

/-- Ordered alternation of literals, with backtracking into the rest of
the pattern; passes the captured text to the continuation. -/
def pAltLits {α} (ws : List (List Char)) (l : List Char)
    (k : List Char → List Char → Option α) : Option α :=
  match ws with
  | [] => none
  | w :: rest =>
    match (if ciPrefix w l then k (l.take w.length) (l.drop w.length) else none) with
    | some r => some r
    | none => pAltLits rest l k

/-- `W1\s*W2` (the `warm\s*up` / `cool\s*down` keyword alternatives). -/
def pWordGapWord {α} (w1 w2 : List Char) (l : List Char)
    (k : List Char → List Char → Option α) : Option α :=
  if ciPrefix w1 l then
    let r := l.drop w1.length
    let sp := r.takeWhile pySpace
    let r2 := r.drop sp.length
    if ciPrefix w2 r2 then
      k (l.take w1.length ++ sp ++ r2.take w2.length) (r2.drop w2.length)
    else none
  else none

/-- `WARMUP_KEYWORDS = (?:warmup|warm\s*up|wu)`. -/
def pWarmupKw {α} (l : List Char) (k : List Char → List Char → Option α) :
    Option α :=
  (pAltLits ["warmup".toList] l k).orElse fun _ =>
  (pWordGapWord "warm".toList "up".toList l k).orElse fun _ =>
  pAltLits ["wu".toList] l k

/-- `COOLDOWN_KEYWORDS = (?:cooldown|cool\s*down|cd)`. -/
def pCooldownKw {α} (l : List Char) (k : List Char → List Char → Option α) :
    Option α :=
  (pAltLits ["cooldown".toList] l k).orElse fun _ =>
  (pWordGapWord "cool".toList "down".toList l k).orElse fun _ =>
  pAltLits ["cd".toList] l k

/-- `INTERVAL_KEYWORDS = (?:interval|int|work|hard|fast|tempo|run)`. -/
def pIntervalKw {α} (l : List Char) (k : List Char → List Char → Option α) :
    Option α :=
  pAltLits (["interval", "int", "work", "hard", "fast", "tempo", "run"].map
    String.toList) l k

/-- `RECOVERY_KEYWORDS = (?:recovery|recover|rest|easy|jog)`. -/
def pRecoveryKw {α} (l : List Char) (k : List Char → List Char → Option α) :
    Option α :=
  pAltLits (["recovery", "recover", "rest", "easy", "jog"].map String.toList) l k

/-- The keyword group of the step patterns, in source order
warmup | cooldown | interval | recovery. -/
def pStepKw {α} (l : List Char) (k : List Char → List Char → Option α) :
    Option α :=
  (pWarmupKw l k).orElse fun _ =>
  (pCooldownKw l k).orElse fun _ =>
  (pIntervalKw l k).orElse fun _ =>
  pRecoveryKw l k

/-- `DISTANCE_UNITS = (?:km|k|kilometers?|mi|miles?|m|meters?)` expanded
in alternation order. -/
def distUnitLits : List (List Char) :=
  ["km", "k", "kilometers", "kilometer", "mi", "miles", "mile", "m", "meters",
    "meter"].map String.toList

/-- `TIME_UNITS = (?:min|minutes?|sec|seconds?|s|hr|hours?|h)` expanded. -/
def timeUnitLits : List (List Char) :=
  ["min", "minutes", "minute", "sec", "seconds", "second", "s", "hr", "hours",
    "hour", "h"].map String.toList

/-- `\d+` capture (maximal munch; every following pattern piece starts
with a non-digit, so backtracking into the run can never help). -/
def pDigits {α} (l : List Char) (k : List Char → List Char → Option α) :
    Option α :=
  let d := l.takeWhile isDigitC
  if d.isEmpty then none else k d (l.drop d.length)

/-- `(\d+(?:\.\d+)?)` capture: greedy optional fraction tried first. -/
def pNumber {α} (l : List Char) (k : List Char → List Char → Option α) :
    Option α :=
  let d1 := l.takeWhile isDigitC
  if d1.isEmpty then none
  else
    let r := l.drop d1.length
    (match r with
     | '.' :: r2 =>
       let d2 := r2.takeWhile isDigitC
       if d2.isEmpty then none
       else k (d1 ++ '.' :: d2) (r2.drop d2.length)
     | _ => none).orElse fun _ => k d1 r

/-- Backtracking `\s*`: longest first down to zero. -/
def tryDrops {α} (l : List Char) (k : List Char → Option α) : Nat → Option α
  | 0 => k l
  | n + 1 => (k (l.drop (n + 1))).orElse fun _ => tryDrops l k n

def pSpacesStar {α} (l : List Char) (k : List Char → Option α) : Option α :=
  tryDrops l k (l.takeWhile pySpace).length

/-- Backtracking `\s+`: longest first down to one. -/
def tryDropsPlus {α} (l : List Char) (k : List Char → Option α) : Nat → Option α
  | 0 => none
  | n + 1 => (k (l.drop (n + 1))).orElse fun _ => tryDropsPlus l k n

def pSpacesPlus {α} (l : List Char) (k : List Char → Option α) : Option α :=
  tryDropsPlus l k (l.takeWhile pySpace).length

/-- Lazy one-or-more of characters satisfying `p` (`.+?`, `[^\+]+?`):
shortest capture first. -/
def pLazyPlusAux {α} (p : Char → Bool) (acc : List Char) :
    List Char → (List Char → List Char → Option α) → Option α
  | [], _ => none
  | c :: tl, k =>
    if p c then
      (k (acc ++ [c]) tl).orElse fun _ => pLazyPlusAux p (acc ++ [c]) tl k
    else none

def pLazyPlus {α} (p : Char → Bool) (l : List Char)
    (k : List Char → List Char → Option α) : Option α :=
  pLazyPlusAux p [] l k

/-- Optional target clause `(?:\s+@\s+(X+?))?` with `X` given by `p`
(`.` in the step patterns, `[^\+]` in the interval pattern); the present
branch is tried first. -/
def pOptTarget {α} (p : Char → Bool) (l : List Char)
    (k : Option (List Char) → List Char → Option α) : Option α :=
  (pSpacesPlus l fun r1 =>
    match r1 with
    | '@' :: r2 => pSpacesPlus r2 fun r3 => pLazyPlus p r3 fun cap r4 => k (some cap) r4
    | _ => none).orElse fun _ => k none l

/-- Optional trailing rest word `(?:rest|recovery|rec|jog|easy)?`. -/
def pOptRestWord {α} (l : List Char) (k : List Char → Option α) : Option α :=
  (pAltLits (["rest", "recovery", "rec", "jog", "easy"].map String.toList) l
    fun _ r => k r).orElse fun _ => k l

/-- Optional recovery clause of the interval pattern:
`(?:\s*\+\s*(\d+(?:\.\d+)?)\s*(TIME|DIST)\s*(?:rest|...)?)?`. -/
def pOptRecovery {α} (l : List Char)
    (k : Option (List Char × List Char) → List Char → Option α) : Option α :=
  (pSpacesStar l fun r1 =>
    match r1 with
    | '+' :: r2 =>
      pSpacesStar r2 fun r3 =>
      pNumber r3 fun rv r4 =>
      pSpacesStar r4 fun r5 =>
      pAltLits (timeUnitLits ++ distUnitLits) r5 fun ru r6 =>
      pSpacesStar r6 fun r7 =>
      pOptRestWord r7 fun r8 =>
      k (some (rv, ru)) r8
    | _ => none).orElse fun _ => k none l

/-- `interval_pattern`: captures (count, work value, work unit, target?,
recovery (value, unit)?). -/
def mInterval (l : List Char) :
    Option (List Char × List Char × List Char × Option (List Char) ×
      Option (List Char × List Char)) :=
  pDigits l fun cnt r1 =>
  pSpacesStar r1 fun r2 =>
  match r2 with
  | c :: r3 =>
    if c.toLower = 'x' then
      pSpacesPlus r3 fun r4 =>
      pNumber r4 fun num r5 =>
      pSpacesStar r5 fun r6 =>
      pAltLits (distUnitLits ++ timeUnitLits) r6 fun unit r7 =>
      pOptTarget (fun ch => ch ≠ '+') r7 fun tgt r8 =>
      pOptRecovery r8 fun rec r9 =>
      if r9.isEmpty then some (cnt, num, unit, tgt, rec) else none
    else none
  | [] => none

/-- `simple_step_pattern`: captures (value, unit, step keyword, target?). -/
def mSimple (l : List Char) :
    Option (List Char × List Char × List Char × Option (List Char)) :=
  pNumber l fun num r1 =>
  pSpacesStar r1 fun r2 =>
  pAltLits (distUnitLits ++ timeUnitLits) r2 fun unit r3 =>
  pSpacesPlus r3 fun r4 =>
  pStepKw r4 fun kw r5 =>
  pOptTarget (fun _ => true) r5 fun tgt r6 =>
  if r6.isEmpty then some (num, unit, kw, tgt) else none

/-- `target_first_pattern`: captures (step keyword, value, unit, target?). -/
def mTargetFirst (l : List Char) :
    Option (List Char × List Char × List Char × Option (List Char)) :=
  pStepKw l fun kw r1 =>
  pSpacesPlus r1 fun r2 =>
  pNumber r2 fun num r3 =>
  pSpacesStar r3 fun r4 =>
  pAltLits (distUnitLits ++ timeUnitLits) r4 fun unit r5 =>
  pOptTarget (fun _ => true) r5 fun tgt r6 =>
  if r6.isEmpty then some (kw, num, unit, tgt) else none

/-- `duration_only_pattern`: captures (value, unit, target?). -/
def mDurationOnly (l : List Char) :
    Option (List Char × List Char × Option (List Char)) :=
  pNumber l fun num r1 =>
  pSpacesStar r1 fun r2 =>
  pAltLits (distUnitLits ++ timeUnitLits) r2 fun unit r3 =>
  pOptTarget (fun _ => true) r3 fun tgt r4 =>
  if r4.isEmpty then some (num, unit, tgt) else none

/-- `open_step_pattern`: a bare step keyword and nothing else. -/
def mOpenStep (l : List Char) : Option (List Char) :=
  pStepKw l fun kw r => if r.isEmpty then some kw else none

/-- One pass of `re.search` scanning used by `_infer_step_type`. -/
def searchWith (try1 : List Char → Option Unit) : List Char → Bool
  | [] => (try1 []).isSome
  | c :: tl => (try1 (c :: tl)).isSome || searchWith try1 (tl)

/-- `RegexWorkoutParser._infer_step_type`: keyword classes searched in
the order warmup, cooldown, recovery, interval; interval by default. -/
def inferStepType (t0 : List Char) : StepTy :=
  let t := t0.map Char.toLower
  if searchWith (fun l => pWarmupKw l fun _ _ => some ()) t then .warmup
  else if searchWith (fun l => pCooldownKw l fun _ _ => some ()) t then .cooldown
  else if searchWith (fun l => pRecoveryKw l fun _ _ => some ()) t then .recovery
  else if searchWith (fun l => pIntervalKw l fun _ _ => some ()) t then .interval
  else .interval

/-- `RegexWorkoutParser._parse_duration`. -/
def parseDurationPy (value : ℚ) (unit : List Char) :
    Except ParseError (DurTy × ℚ) :=
  let u := unit.map Char.toLower
  if u ∈ ["km", "k", "kilometers", "kilometer"].map String.toList then
    .ok (.distance, value)
  else if u ∈ ["m", "meters", "meter"].map String.toList then
    .ok (.distance, value)
  else if u ∈ ["mi", "mile", "miles"].map String.toList then
    .ok (.distance, value)
  else if u ∈ ["min", "minute", "minutes"].map String.toList then
    .ok (.time, value)
  else if u ∈ ["sec", "second", "seconds", "s"].map String.toList then
    .ok (.time, value)
  else if u ∈ ["hr", "hour", "hours", "h"].map String.toList then
    .ok (.time, value)
  else .error (.unknownUnit u)

/-- Pydantic construction of a `WorkoutStep`: runs the record's own
validators (already-validated child instances are not revalidated). -/
def mkStepChecked (s : WorkoutStep) : Except ParseError WorkoutStep :=
  if s.ownValid then .ok s else .error .stepInvalid

/-- `RegexWorkoutParser._parse_simple_step`. -/
def buildSimple (c : List Char × List Char × List Char × Option (List Char)) :
    Except ParseError WorkoutStep :=
  let (numS, unit, kwText, tgtS) := c
  match pyFloat numS with
  | none => .error (.badNumber numS)
  | some value =>
    let st := inferStepType kwText
    match parseDurationPy value unit with
    | .error e => .error e
    | .ok (dt, dv) =>
      match parseTarget tgtS with
      | .error e => .error e
      | .ok (tt, pt, ht) =>
        mkStepChecked (.mk st dt (some dv) (some unit) tt pt ht none none none none)

/-- `RegexWorkoutParser._parse_target_first_step`. -/
def buildTargetFirst (c : List Char × List Char × List Char × Option (List Char)) :
    Except ParseError WorkoutStep :=
  let (kwText, numS, unit, tgtS) := c
  match pyFloat numS with
  | none => .error (.badNumber numS)
  | some value =>
    let st := inferStepType kwText
    match parseDurationPy value unit with
    | .error e => .error e
    | .ok (dt, dv) =>
      match parseTarget tgtS with
      | .error e => .error e
      | .ok (tt, pt, ht) =>
        mkStepChecked (.mk st dt (some dv) (some unit) tt pt ht none none none none)

/-- `RegexWorkoutParser._parse_duration_only_step` (step type defaults to
interval). -/
def buildDurationOnly (c : List Char × List Char × Option (List Char)) :
    Except ParseError WorkoutStep :=
  let (numS, unit, tgtS) := c
  match pyFloat numS with
  | none => .error (.badNumber numS)
  | some value =>
    match parseDurationPy value unit with
    | .error e => .error e
    | .ok (dt, dv) =>
      match parseTarget tgtS with
      | .error e => .error e
      | .ok (tt, pt, ht) =>
        mkStepChecked (.mk .interval dt (some dv) (some unit) tt pt ht none none none none)

/-- `RegexWorkoutParser._parse_open_step`. -/
def buildOpen (kwText : List Char) : Except ParseError WorkoutStep :=
  mkStepChecked
    (.mk (inferStepType kwText) .openDur none none .openTgt none none none none
      none none)

/-- `RegexWorkoutParser._parse_interval_step`. -/
def buildInterval
    (c : List Char × List Char × List Char × Option (List Char) ×
      Option (List Char × List Char)) : Except ParseError WorkoutStep :=
  let (cntS, numS, unit, tgtS, recO) := c
  match pyInt cntS, pyFloat numS with
  | some repeatCount, some workValue =>
    (match parseDurationPy workValue unit with
     | .error e => .error e
     | .ok (dt, dv) =>
       match parseTarget tgtS with
       | .error e => .error e
       | .ok (tt, pt, ht) =>
         match mkStepChecked
             (.mk .interval dt (some dv) (some unit) tt pt ht none none none none) with
         | .error e => .error e
         | .ok workStep =>
           match recO with
           | none =>
             mkStepChecked
               (.mk .repeat .openDur none none .openTgt none none none none
                 (some repeatCount) (some [workStep]))
           | some (rvS, ru) =>
             match pyFloat rvS with
             | none => .error (.badNumber rvS)
             | some rv =>
               match parseDurationPy rv ru with
               | .error e => .error e
               | .ok (rdt, rdv) =>
                 match mkStepChecked
                     (.mk .recovery rdt (some rdv) (some ru) .openTgt none none
                       none none none none) with
                 | .error e => .error e
                 | .ok recStep =>
                   mkStepChecked
                     (.mk .repeat .openDur none none .openTgt none none none none
                       (some repeatCount) (some [workStep, recStep])))
  | _, _ => .error (.badNumber cntS)

/-- `RegexWorkoutParser._parse_step`: the five rules in fixed order. -/
def parseStep (part : List Char) : Except ParseError WorkoutStep :=
  match mInterval part with
  | some c => buildInterval c
  | none =>
  match mSimple part with
  | some c => buildSimple c
  | none =>
  match mTargetFirst part with
  | some c => buildTargetFirst c
  | none =>
  match mDurationOnly part with
  | some c => buildDurationOnly c
  | none =>
  match mOpenStep part with
  | some kw => buildOpen kw
  | none => .error (.unparsableSegment part)

/-- The step loop of `parse`, wrapping per-step errors with the segment. -/
def parseStepsLoop : List (List Char) → Except ParseError (List WorkoutStep)
  | [] => .ok []
  | p :: r =>
    match parseStep p with
    | .error e => .error (.stepError p e)
    | .ok s =>
      match parseStepsLoop r with
      | .error e => .error e
      | .ok rest => .ok (s :: rest)

/-- Pydantic construction of the final `Workout` (at least one step). -/
def mkWorkoutChecked (steps : List WorkoutStep) : Except ParseError Workout :=
  if steps.isEmpty then .error .workoutInvalid
  else
    .ok { name := "Untitled Workout".toList, sport_type := "running".toList,
          steps := steps, scheduled_date := none, notes := none }

/-- `RegexWorkoutParser.parse`. -/
def parse (text : List Char) : Except ParseError Workout :=
  if (pyStrip text).isEmpty then .error .emptyInput
  else
    let normalized := normText text
    let parts := splitWorkout normalized
    if parts.isEmpty then .error .noStepsFound
    else
      match parseStepsLoop parts with
      | .error e => .error e
      | .ok steps => mkWorkoutChecked steps

/-! ### Concrete instances used by witnesses and counterexamples -/

/-- A valid leaf step: 1 km warmup, no target. -/
def stepLeafKm : WorkoutStep :=
  .mk .warmup .distance (some 1) (some "km".toList) .openTgt none none none none
    none none

/-- A valid repeat step: 3 × the leaf step. -/
def innerRepeat : WorkoutStep :=
  .mk .repeat .openDur none none .openTgt none none none none (some 3)
    (some [stepLeafKm])

/-- A repeat step whose first child is itself a repeat step. -/
def nestedRepeat : WorkoutStep :=
  .mk .repeat .openDur none none .openTgt none none none none (some 2)
    (some [innerRepeat, stepLeafKm])

/-- A distance step carrying the unlisted unit spelling "kilometer". -/
def stepKilometerUnit : WorkoutStep :=
  .mk .warmup .distance (some 5) (some "kilometer".toList) .openTgt none none
    none none none none

/-- A time step carrying the unlisted unit spelling "mins". -/
def stepMinsUnit : WorkoutStep :=
  .mk .warmup .time (some 7) (some "mins".toList) .openTgt none none none none
    none none

/-- A valid workout with one leaf step and one repeat step. -/
def demoWorkout : Workout :=
  { name := "Untitled Workout".toList, sport_type := "running".toList,
    steps := [stepLeafKm, innerRepeat], scheduled_date := none, notes := none }

/-! ## Theorems -/

/-! ### C9 — normalization idempotence -/

/-- C9 counterexample: normalization is not idempotent.  On "5 seconds"
the word rule rewrites to "5 sec", and a second application glues the
number to the canonical unit, giving "5sec". -/
theorem C9_counterexample :
    normText (normText "5 seconds".toList) ≠ normText "5 seconds".toList := by
  decide

/-- C9 amended: normalization is not idempotent — a number followed by a
word-form time unit normalizes to a number, a space and the canonical
unit ("5 seconds" → "5 sec"), which a second pass glues to "5sec"; that
third form is a fixpoint. -/
theorem C9_renormalization_glues :
    normText "5 seconds".toList = "5 sec".toList ∧
    normText "5 sec".toList = "5sec".toList ∧
    normText "5sec".toList = "5sec".toList := by
  decide

/-! ### C3 — repeat-step invariants -/

/-- C3 counterexample: a Repeat step whose first child is itself a
Repeat step passes entity validation, so repeat nesting is not
restricted to a single level. -/
theorem C3_counterexample :
    nestedRepeat.valid = true ∧ nestedRepeat.step_type = .repeat ∧
    nestedRepeat.repeat_steps = some [innerRepeat, stepLeafKm] ∧
    innerRepeat.step_type = .repeat :=
  ⟨by decide, rfl, rfl, rfl⟩

/-- Validation of a step tree implies the record-level validation of its
root. -/
theorem WorkoutStep.valid_own {s : WorkoutStep} (h : s.valid = true) :
    s.ownValid = true := by
  cases s with
  | mk st dt dv du tt pt ht ct de rc rs =>
    cases rs with
    | none => exact h
    | some children =>
      rw [WorkoutStep.valid] at h
      exact (Bool.and_eq_true .. ▸ h).1

/-- C3 amended: a validated step of kind Repeat has a repeat count in
1–99 and a non-empty child list (children may themselves be Repeat
steps); a validated step of any other kind has neither field. -/
theorem C3_repeat_invariants (s : WorkoutStep) (h : s.valid = true) :
    (s.step_type = .repeat →
      ∃ n l, s.repeat_count = some n ∧ 1 ≤ n ∧ n ≤ 99 ∧
        s.repeat_steps = some l ∧ l ≠ []) ∧
    (s.step_type ≠ .repeat → s.repeat_count = none ∧ s.repeat_steps = none) := by
  have hown := WorkoutStep.valid_own h
  rw [WorkoutStep.ownValid] at hown
  simp only [Bool.and_eq_true] at hown
  obtain ⟨⟨⟨⟨hd, ht⟩, hrep⟩, hcnt⟩, hp⟩ := hown
  constructor
  · intro hst
    rw [WorkoutStep.repeatFieldsOk, hst] at hrep
    simp only [Bool.and_eq_true, Option.isSome_iff_exists] at hrep
    obtain ⟨⟨n, hn⟩, hsteps⟩ := hrep
    rw [WorkoutStep.countRangeOk, hn] at hcnt
    simp only [Bool.and_eq_true, decide_eq_true_eq] at hcnt
    refine ⟨n, ?_⟩
    cases hrs : s.repeat_steps with
    | none => rw [hrs] at hsteps; simp at hsteps
    | some l =>
      cases l with
      | nil => rw [hrs] at hsteps; simp at hsteps
      | cons a t => exact ⟨a :: t, hn, hcnt.1, hcnt.2, rfl, by simp⟩
  · intro hst
    rw [WorkoutStep.repeatFieldsOk] at hrep
    cases hty : s.step_type <;> rw [hty] at hrep <;>
      simp only [Bool.and_eq_true, Option.isNone_iff_eq_none] at hrep <;>
      first
      | exact hrep
      | exact absurd hty hst

/-- C3 witness: the amended invariant applied to a concrete valid repeat
step. -/
theorem C3_witness :
    ∃ n l, innerRepeat.repeat_count = some n ∧ 1 ≤ n ∧ n ≤ 99 ∧
      innerRepeat.repeat_steps = some l ∧ l ≠ [] :=
  (C3_repeat_invariants innerRepeat (by decide)).1 rfl

/-! ### C10 — unit conversion fallback -/

/-- C10: for a distance step whose unit is not one of the listed
distance spellings, `get_duration_in_meters` returns the raw value
unchanged; symmetrically for `get_duration_in_seconds` on a time step
with an unlisted time unit.  Neither helper can fail. -/
theorem C10_unlisted_unit_passthrough (s : WorkoutStep) (v : ℚ) :
    (s.duration_type = .distance → s.duration_value = some v →
      s.duration_unit ∉ distanceConvUnits.map some →
      s.get_duration_in_meters = some v) ∧
    (s.duration_type = .time → s.duration_value = some v →
      s.duration_unit ∉ timeConvUnits.map some →
      s.get_duration_in_seconds = some v) := by
  constructor
  · intro h1 h2 h3
    simp only [WorkoutStep.get_duration_in_meters, h1, h2]
    split_ifs with hA hB hC
    · simp only [Bool.or_eq_true, decide_eq_true_eq] at hA
      exact absurd (by rcases hA with (h | h) | h <;> rw [h] <;> decide :
        s.duration_unit ∈ distanceConvUnits.map some) h3
    · simp only [Bool.or_eq_true, decide_eq_true_eq] at hB
      exact absurd (by rcases hB with (h | h) | h <;> rw [h] <;> decide :
        s.duration_unit ∈ distanceConvUnits.map some) h3
    · simp only [Bool.or_eq_true, decide_eq_true_eq] at hC
      exact absurd (by rcases hC with (h | h) | h <;> rw [h] <;> decide :
        s.duration_unit ∈ distanceConvUnits.map some) h3
    · rfl
  · intro h1 h2 h3
    simp only [WorkoutStep.get_duration_in_seconds, h1, h2]
    split_ifs with hA hB hC
    · simp only [Bool.or_eq_true, decide_eq_true_eq] at hA
      exact absurd (by rcases hA with (h | h) | h <;> rw [h] <;> decide :
        s.duration_unit ∈ timeConvUnits.map some) h3
    · simp only [Bool.or_eq_true, decide_eq_true_eq] at hB
      exact absurd (by rcases hB with ((h | h) | h) | h <;> rw [h] <;> decide :
        s.duration_unit ∈ timeConvUnits.map some) h3
    · simp only [Bool.or_eq_true, decide_eq_true_eq] at hC
      exact absurd (by rcases hC with ((h | h) | h) | h <;> rw [h] <;> decide :
        s.duration_unit ∈ timeConvUnits.map some) h3
    · rfl

/-- C10 witness: concrete unlisted units ("kilometer" for distance,
"mins" for time) pass the raw value through. -/
theorem C10_witness :
    stepKilometerUnit.get_duration_in_meters = some 5 ∧
    stepMinsUnit.get_duration_in_seconds = some 7 :=
  ⟨(C10_unlisted_unit_passthrough stepKilometerUnit 5).1 rfl rfl (by decide),
   (C10_unlisted_unit_passthrough stepMinsUnit 7).2 rfl rfl (by decide)⟩

/-! ### Character and string lemmas -/

theorem dropWhile_no_matches {p : Char → Bool} (l : List Char)
    (h : ∀ c ∈ l, p c = false) : l.dropWhile p = l := by
  cases l with
  | nil => rfl
  | cons c t => simp [List.dropWhile_cons, h c (List.mem_cons_self c t)]

theorem pyStrip_no_space {l : List Char} (h : ∀ c ∈ l, pySpace c = false) :
    pyStrip l = l := by
  unfold pyStrip
  rw [dropWhile_no_matches l h,
    dropWhile_no_matches l.reverse (fun c hc => h c (List.mem_reverse.mp hc)),
    List.reverse_reverse]

theorem digit_not_space {c : Char} (h : isDigitC c = true) : pySpace c = false := by
  by_contra hc
  rw [Bool.not_eq_false] at hc
  unfold pySpace at hc
  simp only [Bool.or_eq_true, decide_eq_true_eq] at hc
  rcases hc with ((((h1 | h1) | h1) | h1) | h1) | h1 <;> subst h1 <;>
    exact absurd h (by decide)

theorem splitOnChar_ne_nil (sep : Char) (l : List Char) :
    splitOnChar sep l ≠ [] := by
  cases l with
  | nil => simp [splitOnChar]
  | cons c t =>
    rw [splitOnChar]
    split
    · simp
    · split <;> simp

theorem splitOnChar_no_sep (sep : Char) (l : List Char) (h : sep ∉ l) :
    splitOnChar sep l = [l] := by
  induction l with
  | nil => rfl
  | cons c t ih =>
    have hc : ¬(c = sep) := fun e => h (e ▸ List.mem_cons_self c t)
    have ht : sep ∉ t := fun m => h (List.mem_cons_of_mem c m)
    rw [splitOnChar, if_neg hc, ih ht]

theorem splitOnChar_append (sep : Char) (a b : List Char) (ha : sep ∉ a) :
    splitOnChar sep (a ++ sep :: b) = a :: splitOnChar sep b := by
  induction a with
  | nil => simp [splitOnChar]
  | cons c t ih =>
    have hc : ¬(c = sep) := fun e => ha (e ▸ List.mem_cons_self c t)
    have ht : sep ∉ t := fun m => ha (List.mem_cons_of_mem c m)
    rw [List.cons_append, splitOnChar, if_neg hc, ih ht]

theorem pyInt_digits {l : List Char} (h : l.all isDigitC = true) (hne : l ≠ []) :
    pyInt l = some (digitsVal l) := by
  unfold pyInt
  rw [pyStrip_no_space (fun c hc => digit_not_space (List.all_eq_true.mp h c hc))]
  simp [h, hne]

/-- Evaluation of `from_pace_string` on a string assembled from two
nonempty digit groups around a colon (exactly what `_parse_target`
passes it). -/
theorem fromPaceString_digits (g1 g2 : List Char) (h1 : g1.all isDigitC = true)
    (hne1 : g1 ≠ []) (h2 : g2.all isDigitC = true) (hne2 : g2 ≠ []) :
    fromPaceString (g1 ++ ':' :: g2) =
      (if 60 ≤ digitsVal g2 then .error (.paceSeconds (digitsVal g2))
       else if 60 ≤ digitsVal g1 * 60 + digitsVal g2 ∧
           digitsVal g1 * 60 + digitsVal g2 ≤ 1200 then
         .ok ⟨digitsVal g1 * 60 + digitsVal g2, none⟩
       else .error (.paceRange (digitsVal g1 * 60 + digitsVal g2))) := by
  have hstrip : pyStrip (g1 ++ ':' :: g2) = g1 ++ ':' :: g2 := by
    apply pyStrip_no_space
    intro c hc
    rcases List.mem_append.mp hc with hq | hq
    · exact digit_not_space (List.all_eq_true.mp h1 c hq)
    · rcases List.mem_cons.mp hq with rfl | hq2
      · decide
      · exact digit_not_space (List.all_eq_true.mp h2 c hq2)
  have hg1 : ':' ∉ g1 := fun hm => absurd (List.all_eq_true.mp h1 ':' hm) (by decide)
  have hg2 : ':' ∉ g2 := fun hm => absurd (List.all_eq_true.mp h2 ':' hm) (by decide)
  have hmem : ':' ∈ g1 ++ ':' :: g2 :=
    List.mem_append_right _ (List.mem_cons_self ':' g2)
  unfold fromPaceString
  rw [hstrip, if_neg (not_not_intro hmem), splitOnChar_append ':' g1 g2 hg1,
    splitOnChar_no_sep ':' g2 hg2]
  simp only [pyInt_digits h1 hne1, pyInt_digits h2 hne2]

/-! ### C6 — unrecognized target clause degrades to Open -/

/-- C6: a non-empty target clause matched by neither the heart-rate
pattern nor the pace pattern resolves to the Open target without
raising. -/
theorem C6_unmatched_clause_open (s : List Char) (hne : s ≠ [])
    (hhr : hrSearch (pyStrip s) = none) (hpace : paceSearch (pyStrip s) = none) :
    parseTarget (some s) = .ok (.openTgt, none, none) := by
  have hemp : s.isEmpty = false := by
    cases s
    · exact absurd rfl hne
    · rfl
  simp only [parseTarget, hemp, Bool.false_eq_true, if_false, hhr, hpace]

/-- C6 witness: "zone 2" matches neither pattern and resolves to Open. -/
theorem C6_witness :
    parseTarget (some "zone 2".toList) = .ok (.openTgt, none, none) :=
  C6_unmatched_clause_open _ (by decide) (by decide) (by decide)

/-! ### C7 — heart-rate target resolution -/

/-- C7 counterexample: the clause "999bpm" contains a number immediately
followed by "bpm", but resolution raises the pydantic range error on
`min_bpm` instead of returning a HeartRate target. -/
theorem C7_counterexample :
    parseTarget (some "999bpm".toList) = .error (.hrRange 999) := rfl

/-- C7 amended: when the heart-rate pattern matches the clause (this is
tried before the pace rule, so no pace hypothesis is needed), resolution
returns a HeartRate target with `min_bpm` the captured integer and no
max if that integer lies in the validator range 40–220, and fails with
the range validation error otherwise. -/
theorem C7_hr_resolution (s g : List Char) (hne : s ≠ [])
    (hhr : hrSearch (pyStrip s) = some g) :
    (40 ≤ (pyInt g).getD 0 ∧ (pyInt g).getD 0 ≤ 220 →
      parseTarget (some s) = .ok (.heartRate, none, some ⟨(pyInt g).getD 0, none⟩)) ∧
    (¬(40 ≤ (pyInt g).getD 0 ∧ (pyInt g).getD 0 ≤ 220) →
      parseTarget (some s) = .error (.hrRange ((pyInt g).getD 0))) := by
  have hemp : s.isEmpty = false := by
    cases s
    · exact absurd rfl hne
    · rfl
  constructor <;> intro hcond <;>
    simp only [parseTarget, hemp, Bool.false_eq_true, if_false, hhr]
  · rw [if_pos hcond]
  · rw [if_neg hcond]

/-- C7 witness: "165 bpm" resolves to a HeartRate target at 165 bpm. -/
theorem C7_witness :
    parseTarget (some "165 bpm".toList) = .ok (.heartRate, none, some ⟨165, none⟩) := by
  have h := (C7_hr_resolution "165 bpm".toList "165".toList (by decide)
    (by decide)).1 (by decide)
  have e : (pyInt "165".toList).getD 0 = 165 := by decide
  rw [e] at h
  exact h

/-! ### C5 — pace target resolution -/

/-- Captures of the two-digit-minutes pace attempt are nonempty digit
groups. -/
theorem paceTry2_shape {l g1 g2 : List Char} (h : paceTry2 l = some (g1, g2)) :
    g1.all isDigitC = true ∧ g1 ≠ [] ∧ g2.all isDigitC = true ∧ g2 ≠ [] := by
  unfold paceTry2 at h
  rcases l with _ | ⟨a, _ | ⟨b, _ | ⟨c, _ | ⟨d, _ | ⟨e, r⟩⟩⟩⟩⟩ <;> simp at h
  obtain ⟨⟨⟨⟨⟨ha, hb⟩, hc⟩, hd⟩, he⟩, hg1, hg2⟩ := h
  subst hg1
  subst hg2
  simp [ha, hb, hd, he]

/-- Captures of the one-digit-minutes pace attempt are nonempty digit
groups. -/
theorem paceTry1_shape {l g1 g2 : List Char} (h : paceTry1 l = some (g1, g2)) :
    g1.all isDigitC = true ∧ g1 ≠ [] ∧ g2.all isDigitC = true ∧ g2 ≠ [] := by
  unfold paceTry1 at h
  rcases l with _ | ⟨a, _ | ⟨b, _ | ⟨c, _ | ⟨d, r⟩⟩⟩⟩ <;> simp at h
  obtain ⟨⟨⟨⟨ha, hb⟩, hc⟩, hd⟩, hg1, hg2⟩ := h
  subst hg1
  subst hg2
  simp [ha, hc, hd]

/-- Captures of the pace search are nonempty digit groups. -/
theorem paceSearch_shape (l : List Char) {g1 g2 : List Char}
    (h : paceSearch l = some (g1, g2)) :
    g1.all isDigitC = true ∧ g1 ≠ [] ∧ g2.all isDigitC = true ∧ g2 ≠ [] := by
  induction l with
  | nil => simp [paceSearch] at h
  | cons c tl ih =>
    rw [paceSearch] at h
    cases h2 : paceTry2 (c :: tl) with
    | some p =>
      rw [h2] at h
      simp only [Option.orElse] at h
      cases h
      exact paceTry2_shape h2
    | none =>
      rw [h2] at h
      simp only [Option.orElse] at h
      cases h1 : paceTry1 (c :: tl) with
      | some p =>
        rw [h1] at h
        cases h
        exact paceTry1_shape h1
      | none =>
        rw [h1] at h
        exact ih h

/-- C5 counterexample: the clause "5:3" contains a colon but no clean
M:SS token; resolution returns the Open target rather than failing with
an invalid-pace-format error (that error is unreachable from
`_parse_target`). -/
theorem C5_counterexample :
    ':' ∈ "5:3".toList ∧ parseTarget (some "5:3".toList) = .ok (.openTgt, none, none) :=
  ⟨by decide, rfl⟩

/-- C5 amended: for a clause containing a colon and no heart-rate match:
if the pace search finds no M:SS token, resolution silently returns the
Open target; if it captures minutes `g1` and seconds `g2`, resolution
fails with the invalid-pace-seconds error when seconds ≥ 60, yields a
Pace target with `min_seconds_per_km = minutes*60+seconds` and no max
when that total lies in the validator range 60–1200, and fails with the
pydantic range error otherwise. -/
theorem C5_pace_resolution (s : List Char) (hcolon : ':' ∈ s)
    (hhr : hrSearch (pyStrip s) = none) :
    (paceSearch (pyStrip s) = none → parseTarget (some s) = .ok (.openTgt, none, none)) ∧
    (∀ g1 g2, paceSearch (pyStrip s) = some (g1, g2) →
      (60 ≤ digitsVal g2 →
        parseTarget (some s) = .error (.paceSeconds (digitsVal g2))) ∧
      (digitsVal g2 < 60 →
        60 ≤ digitsVal g1 * 60 + digitsVal g2 →
        digitsVal g1 * 60 + digitsVal g2 ≤ 1200 →
        parseTarget (some s) =
          .ok (.pace, some ⟨digitsVal g1 * 60 + digitsVal g2, none⟩, none)) ∧
      (digitsVal g2 < 60 →
        ¬(60 ≤ digitsVal g1 * 60 + digitsVal g2 ∧
          digitsVal g1 * 60 + digitsVal g2 ≤ 1200) →
        parseTarget (some s) =
          .error (.paceRange (digitsVal g1 * 60 + digitsVal g2)))) := by
  have hne : s ≠ [] := List.ne_nil_of_mem hcolon
  have hemp : s.isEmpty = false := by
    cases s
    · exact absurd rfl hne
    · rfl
  constructor
  · intro hpace
    simp only [parseTarget, hemp, Bool.false_eq_true, if_false, hhr, hpace]
  · intro g1 g2 hpace
    obtain ⟨hd1, hne1, hd2, hne2⟩ := paceSearch_shape _ hpace
    have hfp := fromPaceString_digits g1 g2 hd1 hne1 hd2 hne2
    refine ⟨fun hsec => ?_, fun hsec hlo hhi => ?_, fun hsec hrange => ?_⟩ <;>
      simp only [parseTarget, hemp, Bool.false_eq_true, if_false, hhr, hpace, hfp]
    · rw [if_pos hsec]
    · rw [if_neg (by omega), if_pos ⟨hlo, hhi⟩]
    · rw [if_neg (by omega), if_neg hrange]

/-- C5 witness: the clause "4:45" resolves to a Pace target of 285
seconds per kilometer. -/
theorem C5_witness :
    parseTarget (some "4:45".toList) = .ok (.pace, some ⟨285, none⟩, none) := by
  have h := ((C5_pace_resolution "4:45".toList (by decide) (by decide)).2
    "4".toList "45".toList (by decide)).2.1 (by decide) (by decide) (by decide)
  have e1 : digitsVal "4".toList = 4 := by decide
  have e2 : digitsVal "45".toList = 45 := by decide
  rw [e1, e2] at h
  exact h

/-! ### C2 — pace string round trip -/

/-- Facts about `str(m)` for the minutes range reachable under the
validator bound (60–1200 seconds gives at most 20 minutes). -/
theorem natChars_facts : ∀ m, m < 21 →
    (natChars m).all isDigitC = true ∧ natChars m ≠ [] ∧
    digitsVal (natChars m) = m ∧ ':' ∉ natChars m ∧
    ∀ c ∈ natChars m, pySpace c = false := by decide

/-- Facts about the zero-padded seconds rendering for seconds < 60. -/
theorem pad2_facts : ∀ s, s < 60 →
    (pad2 s).all isDigitC = true ∧ pad2 s ≠ [] ∧
    digitsVal (pad2 s) = s ∧ ':' ∉ pad2 s ∧
    ∀ c ∈ pad2 s, pySpace c = false := by decide

/-- C2 counterexample: "0:30" has the form M:SS with seconds < 60, but
parsing fails on the pydantic lower bound (`min_seconds_per_km ≥ 60`)
instead of succeeding. -/
theorem C2_counterexample :
    fromPaceString "0:30".toList = .error (.paceRange 30) := rfl

/-- C2 amended: for every pace value M:SS with 0 ≤ SS < 60 whose total
seconds lie in the validator range 60–1200, parsing the canonical
rendering (minutes without a leading zero, seconds zero-padded) succeeds
with `min_seconds_per_km = M*60+SS` and no max, and formatting that
target returns the same rendering. -/
theorem C2_pace_roundtrip (m s : Nat) (hs : s < 60) (hlo : 60 ≤ m * 60 + s)
    (hhi : m * 60 + s ≤ 1200) :
    fromPaceString (paceRender m s) = .ok ⟨m * 60 + s, none⟩ ∧
    toPaceString ⟨m * 60 + s, none⟩ = paceRender m s := by
  have hm : m < 21 := by omega
  obtain ⟨ha1, hn1, hv1, _, _⟩ := natChars_facts m hm
  obtain ⟨ha2, hn2, hv2, _, _⟩ := pad2_facts s hs
  constructor
  · rw [paceRender, fromPaceString_digits _ _ ha1 hn1 ha2 hn2, hv1, hv2,
      if_neg (by omega), if_pos ⟨hlo, hhi⟩]
  · rw [toPaceString, paceRender]
    have h1 : (m * 60 + s) / 60 = m := by omega
    have h2 : (m * 60 + s) % 60 = s := by omega
    rw [h1, h2]

/-- C2 witness: "5:30" parses to 330 seconds and formats back. -/
theorem C2_witness :
    fromPaceString (paceRender 5 30) = .ok ⟨330, none⟩ ∧
    toPaceString ⟨330, none⟩ = paceRender 5 30 := by
  have h := C2_pace_roundtrip 5 30 (by decide) (by decide) (by decide)
  exact h

/-! ### C4 — fixed rule precedence in `_parse_step` -/

/-- C4: for every segment, `_parse_step` tries the five grammar rules in
the order interval, simple, target-first, duration-only, bare step-type,
builds the step from the first rule that matches, and fails with the
unparsable-segment error carrying the segment text when none matches. -/
theorem C4_rule_precedence (seg : List Char) :
    (∀ c, mInterval seg = some c → parseStep seg = buildInterval c) ∧
    (mInterval seg = none → ∀ c, mSimple seg = some c →
      parseStep seg = buildSimple c) ∧
    (mInterval seg = none → mSimple seg = none → ∀ c, mTargetFirst seg = some c →
      parseStep seg = buildTargetFirst c) ∧
    (mInterval seg = none → mSimple seg = none → mTargetFirst seg = none →
      ∀ c, mDurationOnly seg = some c → parseStep seg = buildDurationOnly c) ∧
    (mInterval seg = none → mSimple seg = none → mTargetFirst seg = none →
      mDurationOnly seg = none → ∀ kw, mOpenStep seg = some kw →
      parseStep seg = buildOpen kw) ∧
    (mInterval seg = none → mSimple seg = none → mTargetFirst seg = none →
      mDurationOnly seg = none → mOpenStep seg = none →
      parseStep seg = .error (.unparsableSegment seg)) := by
  refine ⟨fun c h1 => ?_, fun h1 c h2 => ?_, fun h1 h2 c h3 => ?_,
    fun h1 h2 h3 c h4 => ?_, fun h1 h2 h3 h4 kw h5 => ?_,
    fun h1 h2 h3 h4 h5 => ?_⟩
  · simp only [parseStep, h1]
  · simp only [parseStep, h1, h2]
  · simp only [parseStep, h1, h2, h3]
  · simp only [parseStep, h1, h2, h3, h4]
  · simp only [parseStep, h1, h2, h3, h4, h5]
  · simp only [parseStep, h1, h2, h3, h4, h5]

/-- C4 witness: a segment matching no rule fails with the
unparsable-segment error carrying its text. -/
theorem C4_witness :
    parseStep "gobbledygook".toList =
      .error (.unparsableSegment "gobbledygook".toList) :=
  (C4_rule_precedence "gobbledygook".toList).2.2.2.2.2 rfl rfl rfl rfl rfl

/-! ### C8 — segmentation and the empty-input / no-steps errors -/

/-- Errors escaping the per-segment loop of `parse` are always wrapped
step errors. -/
theorem parseStepsLoop_error_shape :
    ∀ (ps : List (List Char)) (e : ParseError),
      parseStepsLoop ps = .error e → ∃ p e2, e = .stepError p e2 := by
  intro ps
  induction ps with
  | nil => intro e h; simp [parseStepsLoop] at h
  | cons p r ih =>
    intro e h
    rw [parseStepsLoop] at h
    cases hp : parseStep p with
    | error e1 =>
      rw [hp] at h
      cases h
      exact ⟨p, e1, rfl⟩
    | ok s =>
      rw [hp] at h
      cases hr : parseStepsLoop r with
      | error e2 =>
        rw [hr] at h
        injection h with h'
        subst h'
        exact ih e2 hr
      | ok rest =>
        rw [hr] at h
        simp at h

/-- The final workout construction can only fail with the workout
validation error. -/
theorem mkWorkoutChecked_error_shape (steps : List WorkoutStep) (e : ParseError)
    (h : mkWorkoutChecked steps = .error e) : e = .workoutInvalid := by
  unfold mkWorkoutChecked at h
  split at h
  · cases h; rfl
  · simp at h

/-- C8: segmentation splits on "," and drops trimmed-empty pieces
("a, b,, c" gives exactly a, b, c); `parse` fails with the empty-input
error iff the trimmed input is empty, and with the no-steps error iff
the input is non-empty but normalization and splitting yield no
segments. -/
theorem C8_segmentation :
    splitWorkout "a, b,, c".toList = ["a".toList, "b".toList, "c".toList] ∧
    (∀ t, parse t = .error .emptyInput ↔ (pyStrip t).isEmpty = true) ∧
    (∀ t, parse t = .error .noStepsFound ↔
      ((pyStrip t).isEmpty = false ∧ (splitWorkout (normText t)).isEmpty = true)) := by
  refine ⟨by decide, fun t => ?_, fun t => ?_⟩
  · constructor
    · intro h
      by_contra hne
      rw [Bool.not_eq_true] at hne
      rw [parse] at h
      simp only [hne, Bool.false_eq_true, if_false] at h
      by_cases hsp : (splitWorkout (normText t)).isEmpty = true
      · simp only [hsp, if_true] at h
        cases h
      · rw [Bool.not_eq_true] at hsp
        simp only [hsp, Bool.false_eq_true, if_false] at h
        cases hres : parseStepsLoop (splitWorkout (normText t)) with
        | error e =>
          rw [hres] at h
          cases h
          obtain ⟨p, e2, habs⟩ := parseStepsLoop_error_shape _ _ hres
          cases habs
        | ok steps =>
          rw [hres] at h
          cases mkWorkoutChecked_error_shape _ _ h
    · intro h
      rw [parse]
      simp only [h, if_true]
  · constructor
    · intro h
      by_cases hstrip : (pyStrip t).isEmpty = true
      · rw [parse] at h
        simp only [hstrip, if_true] at h
        cases h
      · rw [Bool.not_eq_true] at hstrip
        refine ⟨hstrip, ?_⟩
        rw [parse] at h
        simp only [hstrip, Bool.false_eq_true, if_false] at h
        by_cases hsp : (splitWorkout (normText t)).isEmpty = true
        · exact hsp
        · rw [Bool.not_eq_true] at hsp
          simp only [hsp, Bool.false_eq_true, if_false] at h
          cases hres : parseStepsLoop (splitWorkout (normText t)) with
          | error e =>
            rw [hres] at h
            cases h
            obtain ⟨p, e2, habs⟩ := parseStepsLoop_error_shape _ _ hres
            cases habs
          | ok steps =>
            rw [hres] at h
            cases mkWorkoutChecked_error_shape _ _ h
    · intro ⟨h1, h2⟩
      rw [parse]
      simp only [h1, Bool.false_eq_true, if_false, h2, if_true]

/-! ### C1 — all-or-nothing total distance -/

theorem validList_iff (l : List WorkoutStep) :
    WorkoutStep.validList l = true ↔ ∀ c ∈ l, c.valid = true := by
  induction l with
  | nil => simp [WorkoutStep.validList]
  | cons c r ih =>
    simp [WorkoutStep.validList, Bool.and_eq_true, ih, List.forall_mem_cons]

/-- A validated step tree has validated children. -/
theorem valid_children {s : WorkoutStep} (h : s.valid = true) {l : List WorkoutStep}
    (hrs : s.repeat_steps = some l) : WorkoutStep.validList l = true := by
  cases s with
  | mk st dt dv du tt pt ht ct de rc rs =>
    cases rs with
    | none => simp [WorkoutStep.repeat_steps] at hrs
    | some l2 =>
      simp only [WorkoutStep.repeat_steps, Option.some.injEq] at hrs
      subst hrs
      rw [WorkoutStep.valid] at h
      exact (Bool.and_eq_true .. ▸ h).2

/-- A record-valid repeat step has a count in 1–99 and a non-empty child
list. -/
theorem repeat_fields_present {s : WorkoutStep} (h : s.ownValid = true)
    (hrep : s.step_type = .repeat) :
    ∃ n a t, s.repeat_count = some n ∧ 1 ≤ n ∧ n ≤ 99 ∧
      s.repeat_steps = some (a :: t) := by
  rw [WorkoutStep.ownValid] at h
  simp only [Bool.and_eq_true] at h
  obtain ⟨⟨⟨⟨hd, ht⟩, hrf⟩, hcnt⟩, hp⟩ := h
  rw [WorkoutStep.repeatFieldsOk, hrep] at hrf
  simp only [Bool.and_eq_true, Option.isSome_iff_exists] at hrf
  obtain ⟨⟨n, hn⟩, hsteps⟩ := hrf
  rw [WorkoutStep.countRangeOk, hn] at hcnt
  simp only [Bool.and_eq_true, decide_eq_true_eq] at hcnt
  cases hrs : s.repeat_steps with
  | none => rw [hrs] at hsteps; simp at hsteps
  | some l =>
    cases l with
    | nil => rw [hrs] at hsteps; simp at hsteps
    | cons a t => exact ⟨n, a, t, hn, hcnt.1, hcnt.2, rfl⟩

/-- A record-valid non-repeat step has neither repeat field. -/
theorem repeat_fields_absent {s : WorkoutStep} (h : s.ownValid = true)
    (hne : s.step_type ≠ .repeat) :
    s.repeat_count = none ∧ s.repeat_steps = none := by
  rw [WorkoutStep.ownValid] at h
  simp only [Bool.and_eq_true] at h
  obtain ⟨⟨⟨⟨hd, ht⟩, hrf⟩, hcnt⟩, hp⟩ := h
  rw [WorkoutStep.repeatFieldsOk] at hrf
  cases hty : s.step_type <;> rw [hty] at hrf <;>
    simp only [Bool.and_eq_true, Option.isNone_iff_eq_none] at hrf <;>
    first
    | exact hrf
    | exact absurd hty hne

theorem pyOrOne_of_pos {n : Nat} (h : 1 ≤ n) : pyOrOne (some n) = n := by
  cases n with
  | zero => omega
  | succ k => rfl

/-- For a record-valid step, a distance in meters is available exactly
when the duration kind is Distance. -/
theorem meters_isSome_of_own {s : WorkoutStep} (h : s.ownValid = true) :
    s.get_duration_in_meters.isSome = decide (s.duration_type = .distance) := by
  rw [WorkoutStep.ownValid] at h
  simp only [Bool.and_eq_true] at h
  obtain ⟨⟨⟨⟨hd, ht⟩, hrf⟩, hcnt⟩, hp⟩ := h
  rw [WorkoutStep.durationFieldsOk] at hd
  cases hdv : s.duration_value with
  | none =>
    rw [hdv] at hd
    simp only [decide_eq_true_eq] at hd
    simp [WorkoutStep.get_duration_in_meters, hdv, hd]
  | some v =>
    cases hdt : s.duration_type <;>
      simp only [WorkoutStep.get_duration_in_meters, hdt, hdv] <;>
      first
      | (split_ifs <;> simp)
      | simp

/-- The child loop of `get_total_distance_km` is defined iff every child
has duration kind Distance, and then computes the sum of the children's
distances in meters. -/
theorem sumChildMeters_spec (l : List WorkoutStep)
    (h : WorkoutStep.validList l = true) :
    ((sumChildMeters l).isSome =
      l.all fun c => decide (c.duration_type = .distance)) ∧
    (∀ q, sumChildMeters l = some q →
      q = (l.map fun c => c.get_duration_in_meters.getD 0).sum) := by
  induction l with
  | nil =>
    refine ⟨rfl, fun q hq => ?_⟩
    rw [sumChildMeters] at hq
    cases hq
    simp
  | cons c r ih =>
    rw [WorkoutStep.validList] at h
    simp only [Bool.and_eq_true] at h
    obtain ⟨hc, hr⟩ := h
    obtain ⟨ih1, ih2⟩ := ih hr
    have hcs := meters_isSome_of_own (WorkoutStep.valid_own hc)
    cases hm : c.get_duration_in_meters with
    | none =>
      rw [hm] at hcs
      constructor
      · simp [sumChildMeters, hm, List.all_cons, ← hcs]
      · intro q hq
        simp [sumChildMeters, hm] at hq
    | some m =>
      rw [hm] at hcs
      constructor
      · simp only [sumChildMeters, hm, List.all_cons, ← hcs, Bool.true_and]
        cases hsr : sumChildMeters r with
        | none => rw [hsr] at ih1; simpa using ih1
        | some t => rw [hsr] at ih1; simpa using ih1
      · intro q hq
        simp only [sumChildMeters, hm] at hq
        cases hsr : sumChildMeters r with
        | none => rw [hsr] at hq; simp at hq
        | some t =>
          rw [hsr] at hq
          simp only [Option.map_some', Option.some.injEq] at hq
          rw [List.map_cons, List.sum_cons, hm, ← hq, ih2 t hsr]
          simp

/-- The main loop of `get_total_distance_km` is defined iff every leaf
step has duration kind Distance, and then computes the spec-side sum in
meters. -/
theorem totalMeters_spec (l : List WorkoutStep)
    (h : WorkoutStep.validList l = true) :
    ((totalMetersAux l).isSome = leafStepsAllDistance l) ∧
    (∀ q, totalMetersAux l = some q → q = specTotalMeters l) := by
  induction l with
  | nil =>
    refine ⟨rfl, fun q hq => ?_⟩
    rw [totalMetersAux] at hq
    cases hq
    simp [specTotalMeters]
  | cons s r ih =>
    rw [WorkoutStep.validList] at h
    simp only [Bool.and_eq_true] at h
    obtain ⟨hs, hr⟩ := h
    obtain ⟨ih1, ih2⟩ := ih hr
    have hown := WorkoutStep.valid_own hs
    by_cases hrep : s.step_type = .repeat
    · obtain ⟨n, a, t, hrc, hn1, _, hrs⟩ := repeat_fields_present hown hrep
      have hch := valid_children hs hrs
      obtain ⟨hsum1, hsum2⟩ := sumChildMeters_spec (a :: t) hch
      have hcond : (decide (s.step_type = .repeat) &&
          !(s.repeat_steps.getD []).isEmpty) = true := by
        simp [hrep, hrs]
      have hleaf : leafStepsAllDistance (s :: r) =
          ((a :: t).all (fun c => decide (c.duration_type = .distance)) &&
            leafStepsAllDistance r) := by
        simp [leafStepsAllDistance, List.all_cons, hrep, hrs]
      have hspec : specTotalMeters (s :: r) =
          (n : ℚ) * ((a :: t).map
            (fun c => c.get_duration_in_meters.getD 0)).sum + specTotalMeters r := by
        simp [specTotalMeters, specStepMeters, List.map_cons, List.sum_cons,
          hrep, hrs, hrc]
      constructor
      · rw [totalMetersAux, hleaf]
        cases hsc : sumChildMeters (a :: t) with
        | none =>
          rw [hsc] at hsum1
          simp [hrep, hrs, hrc, hsc, ← hsum1]
        | some d =>
          rw [hsc] at hsum1
          cases htr : totalMetersAux r with
          | none =>
            rw [htr] at ih1
            simp [hrep, hrs, hrc, hsc, htr, ← hsum1, ← ih1]
          | some q2 =>
            rw [htr] at ih1
            simp [hrep, hrs, hrc, hsc, htr, ← hsum1, ← ih1]
      · intro q hq
        rw [totalMetersAux] at hq
        cases hsc : sumChildMeters (a :: t) with
        | none => simp [hrep, hrs, hrc, hsc] at hq
        | some d =>
          cases htr : totalMetersAux r with
          | none => simp [hrep, hrs, hrc, hsc, htr] at hq
          | some q2 =>
            simp only [hrep, hrs] at hq
            simp [hrc, pyOrOne_of_pos hn1, hsc, htr] at hq
            rw [hspec, ← hq, hsum2 d hsc, ih2 q2 htr]
            ring
    · obtain ⟨hrc, hrs⟩ := repeat_fields_absent hown hrep
      have hcond : (decide (s.step_type = .repeat) &&
          !(s.repeat_steps.getD []).isEmpty) = true ↔ False := by
        simp [hrep]
      have hms := meters_isSome_of_own hown
      have hleaf : leafStepsAllDistance (s :: r) =
          (decide (s.duration_type = .distance) && leafStepsAllDistance r) := by
        simp [leafStepsAllDistance, List.all_cons, hrep]
      have hspec : specTotalMeters (s :: r) =
          s.get_duration_in_meters.getD 0 + specTotalMeters r := by
        simp [specTotalMeters, specStepMeters, List.map_cons, List.sum_cons, hrep]
      constructor
      · rw [totalMetersAux, hleaf]
        cases hm : s.get_duration_in_meters with
        | none =>
          rw [hm] at hms
          simp [hrep, hm, ← hms]
        | some m =>
          rw [hm] at hms
          cases htr : totalMetersAux r with
          | none =>
            rw [htr] at ih1
            simp [hrep, hm, htr, ← hms, ← ih1]
          | some q2 =>
            rw [htr] at ih1
            simp [hrep, hm, htr, ← hms, ← ih1]
      · intro q hq
        rw [totalMetersAux] at hq
        cases hm : s.get_duration_in_meters with
        | none => simp [hrep, hm] at hq
        | some m =>
          cases htr : totalMetersAux r with
          | none => simp [hrep, hm, htr] at hq
          | some q2 =>
            simp [hrep, hm, htr] at hq
            rw [hspec, ← hq, hm, ih2 q2 htr]
            simp

/-- C1: on a validated workout, `get_total_distance_km` is defined iff
every leaf step (every non-Repeat top-level step and every child of a
Repeat step) has duration kind Distance, and the result is then the sum
over top-level steps of their distance in meters (Repeat contributing
`repeat_count` times the sum of its children), divided by 1000; it is
never a partial sum. -/
theorem C1_total_distance (w : Workout) (h : w.valid = true) :
    (w.get_total_distance_km.isSome = leafStepsAllDistance w.steps) ∧
    (∀ q, w.get_total_distance_km = some q →
      q = specTotalMeters w.steps / 1000) := by
  have hl : WorkoutStep.validList w.steps = true := by
    rw [Workout.valid] at h
    simp only [Bool.and_eq_true] at h
    exact h.2
  obtain ⟨h1, h2⟩ := totalMeters_spec w.steps hl
  constructor
  · rw [Workout.get_total_distance_km]
    cases htm : totalMetersAux w.steps with
    | none => rw [htm] at h1; simpa using h1
    | some m => rw [htm] at h1; simpa using h1
  · intro q hq
    rw [Workout.get_total_distance_km] at hq
    cases htm : totalMetersAux w.steps with
    | none => rw [htm] at hq; simp at hq
    | some m =>
      rw [htm] at hq
      simp only [Option.map_some', Option.some.injEq] at hq
      rw [← hq, h2 m htm]

/-- C1 witness: the all-or-nothing characterization applied to a
concrete valid workout (a 1 km leaf step and a 3 × 1 km repeat). -/
theorem C1_witness :
    demoWorkout.valid = true ∧
    demoWorkout.get_total_distance_km.isSome = leafStepsAllDistance demoWorkout.steps :=
  ⟨by decide, (C1_total_distance demoWorkout (by decide)).1⟩

end GWC
